import Mathlib

/-!
Verification of the syncr backup orchestrator against its specification.

The embedding translates, from the repository sources:
  - `src/types.ts`        : the data model (BackupSource, MachineConfig, BackupResult,
                            BackupSummary, CliOptions, PathConfig);
  - `src/config.ts`       : `getPaths`, `getMachineConfigPath`, `validateSource`,
                            `validateConfig`, `loadConfig`, `initializeConfig`,
                            `getEnabledSources`;
  - `src/rclone.ts`       : `buildRcloneArgs`, `executeRclone`;
  - `src/backup.ts`       : `backupSource`, `runBackup` (the orchestration loop).

Modelling conventions:
  - Untyped JSON values (the result of `JSON.parse`) are the inductive `JValue`;
    a missing object property (JavaScript `undefined`) is `Option.none` from `jGet`.
  - The filesystem is explicit state: a list of existing paths plus an association
    list of file contents.  `existsSync` is membership, `mkdirSync` / `writeFileSync`
    prepend entries.
  - The external rclone process is an oracle `engine : List String → SpawnOutcome`
    held in the environment; each spawn is recorded in an invocation trace, so
    "the executor was (not) invoked" is observable.
  - Wall-clock time (`Date.now()` differences) is abstracted to a fixed
    `elapsed : Nat` in the environment; only presence/absence of durations matters.
  - `process.exit(1)` before the summary is the `fatal` run outcome; a normal
    return is exit code 0; the final conditional exit is the code carried by the
    `completed` outcome.
-/

/-- A parsed JSON value, as produced by `JSON.parse` (no `undefined` member:
`JSON.parse` never yields it; absent object properties are `none` from `jGet`). -/
inductive JValue where
  | str (s : String)
  | num (n : Int)
  | boolean (b : Bool)
  | null
  | arr (elems : List JValue)
  | obj (fields : List (String × JValue))

/-- Property lookup on the field list of a parsed JSON object. -/
def lookupField : List (String × JValue) → String → Option JValue
  | [], _ => none
  | (k, v) :: rest, key => if k = key then some v else lookupField rest key

/-- JavaScript property access `value[key]`: `none` models `undefined`
(non-objects, and arrays accessed by a non-index name, have no such property). -/
def jGet : JValue → String → Option JValue
  | .obj fields, key => lookupField fields key
  | _, _ => none

/-- The combined JavaScript test `typeof v === 'object' && v !== null`:
true for objects and arrays (for which `typeof` is `'object'`), false for
strings, numbers, booleans and `null`. -/
def isObjectLike : JValue → Bool
  | .obj _ => true
  | .arr _ => true
  | _ => false

/-- Whether an optional value is a JSON string. -/
def isStrOpt : Option JValue → Bool
  | some (.str _) => true
  | _ => false

/-- Whether an optional value is a JSON array (`Array.isArray`). -/
def isArrOpt : Option JValue → Bool
  | some (.arr _) => true
  | _ => false

/-- Whitespace characters stripped by JavaScript `String.prototype.trim`
(the ones relevant to this model). -/
def isWsChar (c : Char) : Bool :=
  c == ' ' || c == '\t' || c == '\n' || c == '\r'

/-- Drop leading whitespace characters. -/
def dropLeadingWs : List Char → List Char
  | [] => []
  | c :: cs => if isWsChar c then dropLeadingWs cs else c :: cs

/-- JavaScript `String.prototype.trim`: strip leading and trailing whitespace. -/
def jsTrim (s : String) : String :=
  ⟨dropLeadingWs (dropLeadingWs s.data.reverse).reverse⟩

/-- Backup source configuration (`src/types.ts`). -/
structure BackupSource where
  name : String
  path : String
  enabled : Bool
deriving Repr, DecidableEq

/-- Machine-specific backup configuration (`src/types.ts`). -/
structure MachineConfig where
  machine_name : String
  sources : List BackupSource
deriving Repr, DecidableEq

/-- Result of a single backup operation (`src/types.ts`). -/
structure BackupResult where
  source : BackupSource
  success : Bool
  error : Option String
  duration : Option Nat
deriving Repr, DecidableEq

/-- Summary of a backup run (`src/types.ts`).  The wall-clock `startTime` and
`endTime` fields are outside the model. -/
structure BackupSummary where
  machine : String
  totalSources : Nat
  successCount : Nat
  failCount : Nat
  skippedCount : Nat
  results : List BackupResult
  dryRun : Bool
deriving Repr, DecidableEq

/-- CLI options parsed from the command line (`src/types.ts`). -/
structure CliOptions where
  dryRun : Bool
  verbose : Bool
  listOnly : Bool
  init : Bool
  checkTools : Bool
deriving Repr, DecidableEq

/-- Platform path configuration (`src/types.ts`). -/
structure PathConfig where
  backupRoot : String
  configDir : String
  machineConfigsDir : String
  logsDir : String
  backupsDir : String
  filtersFile : String
deriving Repr, DecidableEq

/-- Node `path.join` for one separator step; the platform separator is
abstracted to `/`. -/
def joinPath (a b : String) : String := a ++ "/" ++ b

/-- `getPaths` from `src/config.ts`: every location is derived from the backup
root (the process working directory). -/
def getPaths (cwd : String) : PathConfig :=
  { backupRoot := cwd
    configDir := joinPath cwd "config"
    machineConfigsDir := joinPath (joinPath cwd "config") "machine-configs"
    logsDir := joinPath cwd "logs"
    backupsDir := joinPath cwd "backups"
    filtersFile := joinPath (joinPath cwd "config") "filters.txt" }

/-- Outcome of spawning the external rclone process: an exit (with the exit
code, `none` standing for Node's `null` code on signal termination, and the
text the process wrote to stderr), or a failure to launch at all. -/
inductive SpawnOutcome where
  | exited (code : Option Int) (stderr : String)
  | spawnFailure (msg : String)

/-- Filesystem state: the set of existing paths (files or directories) and the
contents of files. -/
structure FS where
  existing : List String
  files : List (String × String)
deriving Repr, DecidableEq

/-- `existsSync`. -/
def pathExists : List String → String → Bool
  | [], _ => false
  | p :: rest, q => if p = q then true else pathExists rest q

/-- `existsSync` on the filesystem state. -/
def fsExists (fs : FS) (p : String) : Bool := pathExists fs.existing p

/-- `mkdirSync(p, { recursive: true })`: record the path as existing. -/
def mkdirp (fs : FS) (p : String) : FS :=
  { fs with existing := p :: fs.existing }

/-- `writeFileSync(p, content)`: the path exists and its content is replaced. -/
def writeFile (fs : FS) (p : String) (content : String) : FS :=
  { existing := p :: fs.existing, files := (p, content) :: fs.files }

/-- File-content lookup (`readFileSync` on the model). -/
def contentLookup : List (String × String) → String → Option String
  | [], _ => none
  | (k, v) :: rest, q => if k = q then some v else contentLookup rest q

/-- Parsed-JSON contents of files: `readFileSync` followed by `JSON.parse`,
abstracted to a direct lookup (a path absent here fails to parse). -/
def jsonLookup : List (String × JValue) → String → Option JValue
  | [], _ => none
  | (k, v) :: rest, q => if k = q then some v else jsonLookup rest q

/-- Run environment: the ambient reads (`process.cwd()`, `os.hostname()`,
`process.platform`), the rclone probe result, the parsed contents of JSON
files on disk, the external-engine oracle, and the abstract elapsed time. -/
structure Env where
  cwd : String
  hostname : String
  win32 : Bool
  rcloneInstalled : Bool
  jsonFiles : List (String × JValue)
  engine : List String → SpawnOutcome
  elapsed : Nat

/-- Mutable run state threaded through the orchestrator: the filesystem and
the trace of rclone invocations (each entry the argument list of one spawn). -/
structure St where
  fs : FS
  trace : List (List String)
deriving Repr, DecidableEq

/-- `getMachineConfigPath` from `src/config.ts`. -/
def getMachineConfigPath (env : Env) : String :=
  joinPath (getPaths env.cwd).machineConfigsDir (env.hostname ++ ".json")

/-- `getEnabledSources` from `src/config.ts`. -/
def getEnabledSources (config : MachineConfig) : List BackupSource :=
  config.sources.filter fun s => s.enabled

/-- A non-empty-after-trim string field of a source object: `some` of the
trimmed value exactly when `typeof s[key] === 'string' && s[key].trim() !== ''`.
`validateSource` raises the same error for a missing, non-string, and blank
field, so the three rejections collapse into `none` here. -/
def trimmedStrField (v : JValue) (key : String) : Option String :=
  match jGet v key with
  | some (.str s) => if jsTrim s = "" then none else some (jsTrim s)
  | _ => none

/-- Reading a boolean off an optional JSON value. -/
def boolFieldOpt : Option JValue → Option Bool
  | some (.boolean b) => some b
  | _ => none

/-- A boolean field of a source object (`typeof s[key] === 'boolean'`). -/
def boolField (v : JValue) (key : String) : Option Bool :=
  boolFieldOpt (jGet v key)

/-- Error message of `validateSource` for a source that is not an object. -/
def msgNotObject (index : Nat) : String :=
  "Source at index " ++ toString index ++ " is not an object"

/-- Error message of `validateSource` for a missing/blank/wrong-typed field. -/
def msgMissingField (index : Nat) (field : String) : String :=
  "Source at index " ++ toString index ++ " missing valid \x27" ++ field ++ "\x27 field"

/-- `validateSource` from `src/config.ts`: checks, in order, that the element
is an object (JavaScript `typeof source !== 'object' || source === null`),
that `name` and `path` are non-empty strings after trimming, and that
`enabled` is a boolean; returns the source with `name` and `path` trimmed. -/
def validateSource (source : JValue) (index : Nat) : Except String BackupSource :=
  if isObjectLike source = false then .error (msgNotObject index)
  else
    match trimmedStrField source "name" with
    | none => .error (msgMissingField index "name")
    | some name =>
      match trimmedStrField source "path" with
      | none => .error (msgMissingField index "path")
      | some path =>
        match boolField source "enabled" with
        | none => .error (msgMissingField index "enabled")
        | some enabled => .ok { name := name, path := path, enabled := enabled }

/-- The `config.sources.map((s, i) => validateSource(s, i))` traversal: the
first thrown validation error propagates; otherwise all sources are built. -/
def validateSources : List JValue → Nat → Except String (List BackupSource)
  | [], _ => .ok []
  | s :: rest, i =>
    match validateSource s i with
    | .error e => .error e
    | .ok v =>
      match validateSources rest (i + 1) with
      | .error e => .error e
      | .ok vs => .ok (v :: vs)

/-- `validateConfig` from `src/config.ts`: the root must be an object (by the
JavaScript `typeof` test, which arrays also satisfy), `machine_name` must be a
string, `sources` must be an array, and every source must validate. -/
def validateConfig (data : JValue) : Except String MachineConfig :=
  if isObjectLike data = false then .error "Config must be a valid JSON object"
  else
    match jGet data "machine_name" with
    | some (.str mn) =>
      (match jGet data "sources" with
       | some (.arr srcs) =>
         (match validateSources srcs 0 with
          | .error e => .error e
          | .ok sources => .ok { machine_name := mn, sources := sources })
       | _ => .error "Config missing \x27sources\x27 array")
    | _ => .error "Config missing \x27machine_name\x27 field"

/-- `loadConfig` from `src/config.ts`: existence check, read + parse
(abstracted to the `jsonFiles` lookup), then validation. -/
def loadConfig (env : Env) (fs : FS) (path : String) : Except String MachineConfig :=
  if fsExists fs path = false then
    .error ("Configuration file not found: " ++ path)
  else
    match jsonLookup env.jsonFiles path with
    | none => .error ("Failed to parse configuration file: " ++ path)
    | some data => validateConfig data

/-- `buildRcloneArgs` from `src/rclone.ts`: base command, then `--dry-run`
when requested, then `--verbose --progress` when requested, then the filter
file when it exists. -/
def buildRcloneArgs (fsState : FS) (cwd : String) (sourcePath destPath : String)
    (dryRun verbose : Bool) : List String :=
  let paths := getPaths cwd
  let args := ["sync", sourcePath, destPath, "--checksum", "--delete-during"]
  let args := if dryRun then args ++ ["--dry-run"] else args
  let args := if verbose then args ++ ["--verbose", "--progress"] else args
  if fsExists fsState paths.filtersFile then
    args ++ ["--filter-from", paths.filtersFile]
  else args

/-- Text of an exit code in the rejection message (`null` when the process
was terminated by a signal). -/
def codeText : Option Int → String
  | some c => toString c
  | none => "null"

/-- `executeRclone` from `src/rclone.ts`: build the arguments, spawn the
engine (recorded in the trace), resolve on exit code 0, otherwise reject with
the captured stderr (only buffered when not verbose) or a generic message;
a launch failure rejects with a distinct wrapped message. -/
def executeRclone (env : Env) (fsState : FS) (trace : List (List String))
    (sourcePath destPath : String) (dryRun verbose : Bool) :
    Except String Unit × List (List String) :=
  let args := buildRcloneArgs fsState env.cwd sourcePath destPath dryRun verbose
  let res : Except String Unit :=
    match env.engine args with
    | .exited (some 0) _ => .ok ()
    | .exited c stderr =>
      let captured := if verbose then "" else stderr
      .error (if captured = "" then "rclone exited with code " ++ codeText c else captured)
    | .spawnFailure m => .error ("Failed to spawn rclone: " ++ m)
  (res, trace ++ [args])

/-- `backupSource` from `src/backup.ts`: a missing source path yields a
non-fatal failed result without touching the executor; otherwise the
destination `join(paths.backupsDir, machineName, source.name)` is created if
absent and the executor is invoked, recording success (with the elapsed
duration) or failure (with the rejection message, no duration).
`finishBackup` is the tail of `backupSource` after the executor settles: the
try branch on resolution, the catch branch on rejection. -/
def finishBackup (source : BackupSource) (elapsed : Nat) (fs1 : FS)
    (ex : Except String Unit × List (List String)) : BackupResult × St :=
  match ex.1 with
  | .ok _ =>
    ({ source := source, success := true, error := none,
       duration := some elapsed }, ⟨fs1, ex.2⟩)
  | .error msg =>
    ({ source := source, success := false, error := some msg,
       duration := none }, ⟨fs1, ex.2⟩)

def backupSource (env : Env) (st : St) (source : BackupSource)
    (dryRun verbose : Bool) : BackupResult × St :=
  if fsExists st.fs source.path = false then
    ({ source := source, success := false,
       error := some "Source path not found", duration := none }, st)
  else
    let destPath := joinPath (joinPath (getPaths env.cwd).backupsDir env.hostname) source.name
    let fs1 := if fsExists st.fs destPath then st.fs else mkdirp st.fs destPath
    finishBackup source env.elapsed fs1
      (executeRclone env fs1 st.trace source.path destPath dryRun verbose)

/-- The `for (const source of enabledSources)` loop of `runBackup`:
sequentially process each source, threading the state, collecting one result
per source in order. -/
def processSources (env : Env) (st : St) (sources : List BackupSource)
    (dryRun verbose : Bool) : List BackupResult × St :=
  match sources with
  | [] => ([], st)
  | s :: rest =>
    let pr := backupSource env st s dryRun verbose
    let rest' := processSources env pr.2 rest dryRun verbose
    (pr.1 :: rest'.1, rest'.2)

/-- The JSON string escaping performed by `JSON.stringify` (restricted to the
backslash and quote escapes, the only ones the template needs). -/
def jsonEscape (s : String) : String :=
  String.join (s.data.map fun c =>
    if c == '\\' then "\\\\" else if c == '"' then "\\\"" else String.singleton c)

/-- A JSON string literal. -/
def quoteStr (s : String) : String := "\"" ++ jsonEscape s ++ "\""

/-- One source rendered by `JSON.stringify(template, null, 2)` at depth two. -/
def serializeSource (s : BackupSource) : String :=
  "    \x7b\n      \"name\": " ++ quoteStr s.name ++ ",\n      \"path\": "
    ++ quoteStr s.path ++ ",\n      \"enabled\": "
    ++ (if s.enabled then "true" else "false") ++ "\n    \x7d"

/-- The comma-joined source list of the serialized template. -/
def serializeSources : List BackupSource → String
  | [] => ""
  | [s] => serializeSource s
  | s :: rest => serializeSource s ++ ",\n" ++ serializeSources rest

/-- `JSON.stringify(config, null, 2)` for a machine configuration. -/
def serializeConfig (c : MachineConfig) : String :=
  "\x7b\n  \"machine_name\": " ++ quoteStr c.machine_name ++ ",\n  \"sources\": "
    ++ (if c.sources.isEmpty then "[]"
        else "[\n" ++ serializeSources c.sources ++ "\n  ]")
    ++ "\n\x7d"

/-- The template configuration written by `initializeConfig`: one example
source, platform-dependent example path, disabled. -/
def templateConfig (hostname : String) (win32 : Bool) : MachineConfig :=
  { machine_name := hostname
    sources := [{ name := "ExampleProject"
                  path := if win32 then "C:\\Path\\To\\Project\\_docs"
                          else "/path/to/project/_docs"
                  enabled := false }] }

/-- `initializeConfig` from `src/config.ts`: ensure the machine-configs
directory exists, return the config path untouched when a file is already
there, otherwise write the serialized template and return the path. -/
def initializeConfig (env : Env) (fs : FS) : String × FS :=
  let paths := getPaths env.cwd
  let configPath := getMachineConfigPath env
  let fs1 := if fsExists fs paths.machineConfigsDir then fs
             else mkdirp fs paths.machineConfigsDir
  if fsExists fs1 configPath then (configPath, fs1)
  else (configPath,
        writeFile fs1 configPath (serializeConfig (templateConfig env.hostname env.win32)))

/-- Terminal outcome of one `runBackup` invocation.  `special` covers the
`--check-tools` / `--init` / `--list-only` short-circuits; `fatal` is a
`process.exit(1)` before any source is processed; `noSources` is the early
successful return when no source is enabled; `completed` carries the summary
and the process exit code (0 on plain return, 1 from the final
`if (failCount > 0 && !options.dryRun) process.exit(1)`). -/
inductive RunOutcome where
  | special
  | fatal
  | noSources
  | completed (summary : BackupSummary) (exitCode : Nat)
deriving Repr, DecidableEq

/-- `runBackup` from `src/backup.ts`: special modes short-circuit; the backup
root, the rclone probe, and the presence and validity of the machine config
are fatal prerequisites; then every enabled source is processed in order and
the summary and exit code are produced. -/
def runBackup (env : Env) (fs : FS) (opts : CliOptions) : RunOutcome × St :=
  if opts.checkTools then (.special, ⟨fs, []⟩)
  else if opts.init then (.special, ⟨(initializeConfig env fs).2, []⟩)
  else if opts.listOnly then (.special, ⟨fs, []⟩)
  else if fsExists fs (getPaths env.cwd).backupRoot = false then (.fatal, ⟨fs, []⟩)
  else if env.rcloneInstalled = false then (.fatal, ⟨fs, []⟩)
  else if fsExists fs (getMachineConfigPath env) = false then (.fatal, ⟨fs, []⟩)
  else
    match loadConfig env fs (getMachineConfigPath env) with
    | .error _ => (.fatal, ⟨fs, []⟩)
    | .ok config =>
      let enabled := getEnabledSources config
      if enabled.length = 0 then (.noSources, ⟨fs, []⟩)
      else
        let pr := processSources env ⟨fs, []⟩ enabled opts.dryRun opts.verbose
        let successCount := (pr.1.filter fun r => r.success).length
        let failCount := (pr.1.filter fun r => !r.success).length
        let summary : BackupSummary :=
          { machine := env.hostname
            totalSources := enabled.length
            successCount := successCount
            failCount := failCount
            skippedCount := config.sources.length - enabled.length
            results := pr.1
            dryRun := opts.dryRun }
        (.completed summary (if failCount > 0 ∧ opts.dryRun = false then 1 else 0), pr.2)

/-- Whether an `Except` value is a success. -/
def isOkE (e : Except String BackupSource) : Bool :=
  match e with
  | .ok _ => true
  | .error _ => false

/-- Normalization of an optional JSON value under trimming of string payloads:
two field values are interchangeable for validation exactly when their
normalizations agree. -/
def trimNorm : Option JValue → Option JValue
  | some (.str s) => some (.str (jsTrim s))
  | v => v

/-- Reading a validated string field off its trim-normalization. -/
def optStrVal : Option JValue → Option String
  | some (.str t) => if t = "" then none else some t
  | _ => none

/-- Everything `validateSource` observes about a source element: its
object-likeness, the trim-normalized `name` and `path` fields, and the
`enabled` field. -/
def srcKey (s : JValue) : Bool × Option JValue × Option JValue × Option JValue :=
  (isObjectLike s, trimNorm (jGet s "name"), trimNorm (jGet s "path"), jGet s "enabled")

/-- Two source elements that differ only by leading/trailing whitespace in
their `name`/`path` strings (and possibly in fields validation ignores). -/
def srcTrimEquiv (s s' : JValue) : Prop := srcKey s = srcKey s'

/-- Normalization of the `sources` field: an array becomes the list of its
elements' validation keys, anything else is kept as is. -/
def srcsNorm : Option JValue →
    Option JValue ⊕ List (Bool × Option JValue × Option JValue × Option JValue)
  | some (.arr xs) => .inr (xs.map srcKey)
  | v => .inl v

/-- Two untyped configuration inputs that differ only by whitespace padding
around the `name`/`path` strings of their sources. -/
def configTrimEquiv (d d' : JValue) : Prop :=
  isObjectLike d = isObjectLike d' ∧
  jGet d "machine_name" = jGet d' "machine_name" ∧
  srcsNorm (jGet d "sources") = srcsNorm (jGet d' "sources")

/-- `validateSource` as a function of the validation key alone: the source
value enters validation only through `srcKey`. -/
def validateSourceKey (key : Bool × Option JValue × Option JValue × Option JValue)
    (index : Nat) : Except String BackupSource :=
  if key.1 = false then .error (msgNotObject index)
  else
    match optStrVal key.2.1 with
    | none => .error (msgMissingField index "name")
    | some name =>
      match optStrVal key.2.2.1 with
      | none => .error (msgMissingField index "path")
      | some path =>
        match boolFieldOpt key.2.2.2 with
        | none => .error (msgMissingField index "enabled")
        | some enabled => .ok { name := name, path := path, enabled := enabled }

/-- The source traversal as a function of the element keys alone. -/
def validateSourcesKeys :
    List (Bool × Option JValue × Option JValue × Option JValue) → Nat →
      Except String (List BackupSource)
  | [], _ => .ok []
  | key :: rest, i =>
    match validateSourceKey key i with
    | .error e => .error e
    | .ok v =>
      match validateSourcesKeys rest (i + 1) with
      | .error e => .error e
      | .ok vs => .ok (v :: vs)

/-- `validateConfig` as a function of the object-likeness of the root, the
`machine_name` field, and the normalized `sources` field. -/
def validateConfigKey (rootOk : Bool) (mn : Option JValue)
    (srcs : Option JValue ⊕ List (Bool × Option JValue × Option JValue × Option JValue)) :
    Except String MachineConfig :=
  if rootOk = false then .error "Config must be a valid JSON object"
  else
    match mn with
    | some (.str m) =>
      (match srcs with
       | .inr keys =>
         (match validateSourcesKeys keys 0 with
          | .error e => .error e
          | .ok sources => .ok { machine_name := m, sources := sources })
       | .inl _ => .error "Config missing \x27sources\x27 array")
    | _ => .error "Config missing \x27machine_name\x27 field"

/-- Concrete scenario: source element `a` (path present on disk). -/
def wSrcA : JValue := .obj [("name", .str "a"), ("path", .str "/p"), ("enabled", .boolean true)]

/-- Concrete scenario: source element `b` (path missing on disk). -/
def wSrcB : JValue := .obj [("name", .str "b"), ("path", .str "/pb"), ("enabled", .boolean true)]

/-- Concrete scenario: source element `c` (disabled). -/
def wSrcC : JValue := .obj [("name", .str "c"), ("path", .str "/pc"), ("enabled", .boolean false)]

/-- Concrete scenario: the parsed machine configuration file. -/
def wData : JValue :=
  .obj [("machine_name", .str "h"), ("sources", .arr [wSrcA, wSrcB, wSrcC])]

/-- Concrete scenario: the validated machine configuration. -/
def wConfig : MachineConfig :=
  { machine_name := "h"
    sources := [⟨"a", "/p", true⟩, ⟨"b", "/pb", true⟩, ⟨"c", "/pc", false⟩] }

/-- Concrete scenario: run environment (root `r`, host `h`, rclone present,
engine always exiting 0). -/
def wEnv : Env :=
  { cwd := "r", hostname := "h", win32 := false, rcloneInstalled := true,
    jsonFiles := [("r/config/machine-configs/h.json", wData)],
    engine := fun _ => .exited (some 0) "", elapsed := 7 }

/-- Concrete scenario: initial filesystem (root, config file and `/p` exist,
`/pb` does not). -/
def wFS : FS :=
  { existing := ["r", "r/config/machine-configs/h.json", "/p"], files := [] }

/-- Concrete scenario: default CLI options (plain non-dry run). -/
def wOpts : CliOptions :=
  { dryRun := false, verbose := false, listOnly := false, init := false, checkTools := false }

/-- Concrete scenario: the summary the run produces (source `a` succeeds,
source `b` fails on the missing path, source `c` is skipped). -/
def wSummary : BackupSummary :=
  { machine := "h", totalSources := 2, successCount := 1, failCount := 1, skippedCount := 1,
    results := [⟨⟨"a", "/p", true⟩, true, none, some 7⟩,
                ⟨⟨"b", "/pb", true⟩, false, some "Source path not found", none⟩],
    dryRun := false }

/-- Concrete scenario: the final run state (destination created, one rclone
invocation recorded). -/
def wSt : St :=
  { fs := { existing := ["r/backups/h/a", "r", "r/config/machine-configs/h.json", "/p"],
            files := [] },
    trace := [["sync", "/p", "r/backups/h/a", "--checksum", "--delete-during"]] }

/-- Concrete filesystem on which the filter-rules file exists. -/
def cFS : FS := { existing := ["r/config/filters.txt"], files := [] }

/-- Concrete configuration input with whitespace padding around `name` and
`path` of its single source. -/
def wPaddedData : JValue :=
  .obj [("machine_name", .str "h"),
        ("sources", .arr [.obj [("name", .str "  a \t"), ("path", .str " /p "),
                                ("enabled", .boolean true)]])]

/-- The same configuration input with the padding removed. -/
def wPlainData : JValue :=
  .obj [("machine_name", .str "h"),
        ("sources", .arr [.obj [("name", .str "a"), ("path", .str "/p"),
                                ("enabled", .boolean true)]])]

/-- The settled result always carries the processed source. -/
theorem finishBackup_source (s : BackupSource) (el : Nat) (f : FS)
    (ex : Except String Unit × List (List String)) :
    ((finishBackup s el f ex).1).source = s := by
  unfold finishBackup
  split <;> rfl

/-- The settled result has a duration exactly when it is a success. -/
theorem finishBackup_duration (s : BackupSource) (el : Nat) (f : FS)
    (ex : Except String Unit × List (List String)) :
    ((finishBackup s el f ex).1).duration.isSome = ((finishBackup s el f ex).1).success := by
  unfold finishBackup
  split <;> rfl

/-- The state after settling: the filesystem chosen before the spawn, and the
trace returned by the executor. -/
theorem finishBackup_snd (s : BackupSource) (el : Nat) (f : FS)
    (ex : Except String Unit × List (List String)) :
    (finishBackup s el f ex).2 = ⟨f, ex.2⟩ := by
  unfold finishBackup
  split <;> rfl

/-- The executor always appends exactly its argument list to the trace. -/
theorem executeRclone_trace (env : Env) (fsState : FS) (trace : List (List String))
    (sp dp : String) (d v : Bool) :
    (executeRclone env fsState trace sp dp d v).2
      = trace ++ [buildRcloneArgs fsState env.cwd sp dp d v] := rfl

/-- The result record built by `backupSource` always carries the processed
source. -/
theorem backupSource_source (env : Env) (st : St) (s : BackupSource) (d v : Bool) :
    ((backupSource env st s d v).1).source = s := by
  unfold backupSource
  split
  · rfl
  · exact finishBackup_source _ _ _ _

/-- The loop records exactly one result per source, in order. -/
theorem processSources_map (env : Env) :
    ∀ (l : List BackupSource) (st : St) (d v : Bool),
      ((processSources env st l d v).1).map (fun r => r.source) = l := by
  intro l
  induction l with
  | nil => intro st d v; rfl
  | cons s rest ih =>
    intro st d v
    simp only [processSources, List.map_cons, backupSource_source, ih]

/-- The loop produces as many results as sources. -/
theorem processSources_length (env : Env) (l : List BackupSource) (st : St) (d v : Bool) :
    ((processSources env st l d v).1).length = l.length := by
  have h := congrArg List.length (processSources_map env l st d v)
  simpa using h

/-- Every result is counted once: successes plus failures. -/
theorem length_filter_success_add_not (l : List BackupResult) :
    (l.filter fun r => r.success).length + (l.filter fun r => !r.success).length
      = l.length := by
  induction l with
  | nil => rfl
  | cons r t ih =>
    cases h : r.success <;> simp [List.filter_cons, h] <;> omega

/-- Inversion of a run that reaches the summarizing step: the configuration
validated, and the summary fields are exactly the aggregates of the per-source
results over the enabled sources, with the final exit code given by the
failure count and the dry-run flag. -/
theorem runBackup_completed_inv (env : Env) (fs : FS) (opts : CliOptions)
    (summary : BackupSummary) (ec : Nat) (st : St)
    (h : runBackup env fs opts = (.completed summary ec, st)) :
    ∃ config, loadConfig env fs (getMachineConfigPath env) = .ok config ∧
      summary.results.map (fun r => r.source) = getEnabledSources config ∧
      summary.totalSources = (getEnabledSources config).length ∧
      summary.successCount = (summary.results.filter fun r => r.success).length ∧
      summary.failCount = (summary.results.filter fun r => !r.success).length ∧
      summary.skippedCount = config.sources.length - (getEnabledSources config).length ∧
      summary.dryRun = opts.dryRun ∧
      ec = (if summary.failCount > 0 ∧ opts.dryRun = false then 1 else 0) := by
  unfold runBackup at h
  split at h
  · simp at h
  · split at h
    · simp at h
    · split at h
      · simp at h
      · split at h
        · simp at h
        · split at h
          · simp at h
          · split at h
            · simp at h
            · split at h
              · simp at h
              · next config hload =>
                dsimp only at h
                split at h
                · simp at h
                · simp only [Prod.mk.injEq, RunOutcome.completed.injEq] at h
                  obtain ⟨⟨hsum, hec⟩, _⟩ := h
                  refine ⟨config, hload, ?_⟩
                  subst hsum
                  refine ⟨?_, rfl, rfl, rfl, rfl, rfl, ?_⟩
                  · exact processSources_map env (getEnabledSources config) ⟨fs, []⟩
                      opts.dryRun opts.verbose
                  · exact hec.symm

/-- The argument list decomposed into its base and optional groups, in the
order the code pushes them: `--dry-run`, then `--verbose --progress`, then
the filter pair. -/
theorem buildRcloneArgs_groups (fsState : FS) (cwd sp dp : String) (d v : Bool) :
    buildRcloneArgs fsState cwd sp dp d v =
      ["sync", sp, dp, "--checksum", "--delete-during"]
        ++ (if d then ["--dry-run"] else [])
        ++ (if v then ["--verbose", "--progress"] else [])
        ++ (if fsExists fsState (getPaths cwd).filtersFile
            then ["--filter-from", (getPaths cwd).filtersFile] else []) := by
  cases d <;> cases v <;>
    cases hf : fsExists fsState (getPaths cwd).filtersFile <;>
      simp [buildRcloneArgs, hf]

/-- C10: every `BackupResult` produced for a single source has a `duration`
exactly when `success` is true: the success branch records the elapsed time,
while both failure branches (missing source path, executor rejection) omit
it. -/
theorem duration_iff_success (env : Env) (st : St) (s : BackupSource) (d v : Bool) :
    ((backupSource env st s d v).1).duration.isSome
      = ((backupSource env st s d v).1).success := by
  unfold backupSource
  split
  · rfl
  · exact finishBackup_duration _ _ _ _

/-- C5: an enabled source whose path does not exist yields exactly the
non-fatal result `success = false`, `error = "Source path not found"`, with
the run state (filesystem and executor-invocation trace) untouched — so the
sync executor is not invoked for it; and the loop always produces one result
per source in order, so processing continues past such a failure. -/
theorem missing_source_recoverable :
    (∀ (env : Env) (st : St) (s : BackupSource) (d v : Bool),
      fsExists st.fs s.path = false →
        backupSource env st s d v =
          ({ source := s, success := false, error := some "Source path not found",
             duration := none }, st))
    ∧ (∀ (env : Env) (st : St) (l : List BackupSource) (d v : Bool),
        ((processSources env st l d v).1).map (fun r => r.source) = l) := by
  constructor
  · intro env st s d v h
    unfold backupSource
    rw [if_pos h]
  · intro env st l d v
    exact processSources_map env l st d v

/-- Witness for C5: on the concrete scenario, source `b` (missing path `/pb`)
is recorded as the non-fatal failure and the state is unchanged, while the
loop over both enabled sources still yields a result for each. -/
theorem missing_source_recoverable_witness :
    backupSource wEnv ⟨wFS, []⟩ ⟨"b", "/pb", true⟩ false false =
      ({ source := ⟨"b", "/pb", true⟩, success := false,
         error := some "Source path not found", duration := none }, ⟨wFS, []⟩) ∧
    ((processSources wEnv ⟨wFS, []⟩ [⟨"a", "/p", true⟩, ⟨"b", "/pb", true⟩] false false).1).map
        (fun r => r.source) = [⟨"a", "/p", true⟩, ⟨"b", "/pb", true⟩] :=
  ⟨missing_source_recoverable.1 wEnv ⟨wFS, []⟩ ⟨"b", "/pb", true⟩ false false rfl,
   missing_source_recoverable.2 wEnv ⟨wFS, []⟩ [⟨"a", "/p", true⟩, ⟨"b", "/pb", true⟩] false false⟩

/-- C7: when a source is actually synced, the destination handed to the
external engine (the third token of the recorded invocation) is always
`join(join(root, "backups"), machineIdentity, source.name)`; the formula
mentions only the root, the machine identity and the source name, so the
path is independent of the filesystem, the trace and any prior processing,
and `backupsDir` itself is `join(root, "backups")`. -/
theorem destination_path_determinism (env : Env) (st : St) (s : BackupSource) (d v : Bool)
    (h : fsExists st.fs s.path = true) :
    (getPaths env.cwd).backupsDir = joinPath env.cwd "backups" ∧
    ∃ args, ((backupSource env st s d v).2).trace = st.trace ++ [args] ∧
      args[2]? = some (joinPath (joinPath (joinPath env.cwd "backups") env.hostname) s.name) := by
  refine ⟨rfl, ?_⟩
  unfold backupSource
  rw [if_neg (by simp [h])]
  simp only [finishBackup_snd, executeRclone_trace]
  refine ⟨_, rfl, ?_⟩
  rw [buildRcloneArgs_groups]
  rfl

/-- Witness for C7: on the concrete scenario, processing source `a` records
one invocation whose destination token is `r/backups/h/a`. -/
theorem destination_path_determinism_witness :
    (getPaths wEnv.cwd).backupsDir = joinPath wEnv.cwd "backups" ∧
    ∃ args, ((backupSource wEnv ⟨wFS, []⟩ ⟨"a", "/p", true⟩ false false).2).trace
        = ([] : List (List String)) ++ [args] ∧
      args[2]? = some (joinPath (joinPath (joinPath wEnv.cwd "backups") wEnv.hostname) "a") :=
  destination_path_determinism wEnv ⟨wFS, []⟩ ⟨"a", "/p", true⟩ false false rfl

/-- C6 counterexample: with the filter-rules file present and `dryRun` set,
the code puts `--dry-run` before the `--filter-from` pair, not after it as
the claimed order `[--filter-from <file>] [--dry-run] [--verbose --progress]`
requires; the claimed token sequence is therefore not produced. -/
theorem rclone_args_order_counterexample :
    buildRcloneArgs cFS "r" "a" "b" true false =
      ["sync", "a", "b", "--checksum", "--delete-during",
       "--dry-run", "--filter-from", "r/config/filters.txt"] ∧
    buildRcloneArgs cFS "r" "a" "b" true false ≠
      ["sync", "a", "b", "--checksum", "--delete-during",
       "--filter-from", "r/config/filters.txt", "--dry-run"] := by
  constructor
  · rfl
  · decide

/-- C6 (amended): the argument list is exactly
`sync <source> <dest> --checksum --delete-during [--dry-run]
[--verbose --progress] [--filter-from <file>]`: the first five tokens always
present in that order, `--dry-run` present exactly when `dryRun` is set,
`--verbose --progress` present exactly when `verbose` is set, and the
filter pair present exactly when the filter-rules file exists — with the
optional groups in this order, the filter pair last. -/
theorem rclone_args_structure (fsState : FS) (cwd sp dp : String) (d v : Bool) :
    buildRcloneArgs fsState cwd sp dp d v =
      ["sync", sp, dp, "--checksum", "--delete-during"]
        ++ (if d then ["--dry-run"] else [])
        ++ (if v then ["--verbose", "--progress"] else [])
        ++ (if fsExists fsState (getPaths cwd).filtersFile
            then ["--filter-from", (getPaths cwd).filtersFile] else []) :=
  buildRcloneArgs_groups fsState cwd sp dp d v

/-- C1: for every run that reaches the summarizing step, the process exit
code is 0 exactly when no result failed or the run was a dry run; in
particular a run with a failing source exits non-zero when `dryRun` is false
and exits 0 when `dryRun` is true.  (A fatal abort before any source is
processed exits 1 separately and produces no summary.) -/
theorem exit_code_policy (env : Env) (fs : FS) (opts : CliOptions)
    (summary : BackupSummary) (ec : Nat) (st : St)
    (h : runBackup env fs opts = (.completed summary ec, st)) :
    (ec = 0 ↔ (summary.failCount = 0 ∨ opts.dryRun = true)) ∧
    (summary.failCount > 0 → opts.dryRun = false → ec ≠ 0) ∧
    (summary.failCount > 0 → opts.dryRun = true → ec = 0) := by
  obtain ⟨config, -, -, -, -, -, -, -, hec⟩ :=
    runBackup_completed_inv env fs opts summary ec st h
  subst hec
  cases hd : opts.dryRun <;>
    rcases Nat.eq_zero_or_pos summary.failCount with h0 | h0 <;>
      · simp [hd, h0]
        try omega

/-- Witness for C1: the concrete scenario has one failing source and
`dryRun = false`, and its exit code 1 satisfies the policy. -/
theorem exit_code_policy_witness :
    ((1 : Nat) = 0 ↔ (wSummary.failCount = 0 ∨ wOpts.dryRun = true)) ∧
    (wSummary.failCount > 0 → wOpts.dryRun = false → (1 : Nat) ≠ 0) ∧
    (wSummary.failCount > 0 → wOpts.dryRun = true → (1 : Nat) = 0) :=
  exit_code_policy wEnv wFS wOpts wSummary 1 wSt rfl

/-- C2: for every configuration with `n` total sources of which `k` are
enabled, any produced summary satisfies
`successCount + failCount = totalSources = k` and `skippedCount = n - k`,
for every engine behavior. -/
theorem summary_count_invariant (env : Env) (fs : FS) (opts : CliOptions)
    (config : MachineConfig) (summary : BackupSummary) (ec : Nat) (st : St)
    (hload : loadConfig env fs (getMachineConfigPath env) = .ok config)
    (h : runBackup env fs opts = (.completed summary ec, st)) :
    summary.successCount + summary.failCount = summary.totalSources ∧
    summary.totalSources = (getEnabledSources config).length ∧
    summary.skippedCount = config.sources.length - (getEnabledSources config).length := by
  obtain ⟨config', hload', hmap, htot, hsucc, hfail, hskip, -, -⟩ :=
    runBackup_completed_inv env fs opts summary ec st h
  have hcc : config' = config := Except.ok.inj (hload'.symm.trans hload)
  rw [hcc] at hmap htot hskip
  have hlen : summary.results.length = (getEnabledSources config).length := by
    have := congrArg List.length hmap
    simpa using this
  refine ⟨?_, htot, hskip⟩
  rw [hsucc, hfail, htot, length_filter_success_add_not, hlen]

/-- Witness for C2: the concrete scenario has 3 configured sources, 2
enabled, and its summary counts 1 success, 1 failure, 1 skipped. -/
theorem summary_count_invariant_witness :
    wSummary.successCount + wSummary.failCount = wSummary.totalSources ∧
    wSummary.totalSources = (getEnabledSources wConfig).length ∧
    wSummary.skippedCount = wConfig.sources.length - (getEnabledSources wConfig).length :=
  summary_count_invariant wEnv wFS wOpts wConfig wSummary 1 wSt rfl rfl

/-- C4: the sequence of results in any produced summary is exactly the
enabled sources of the original configuration, in configuration order, one
result per enabled source. -/
theorem results_order_preservation (env : Env) (fs : FS) (opts : CliOptions)
    (config : MachineConfig) (summary : BackupSummary) (ec : Nat) (st : St)
    (hload : loadConfig env fs (getMachineConfigPath env) = .ok config)
    (h : runBackup env fs opts = (.completed summary ec, st)) :
    summary.results.map (fun r => r.source) = getEnabledSources config := by
  obtain ⟨config', hload', hmap, -, -, -, -, -, -⟩ :=
    runBackup_completed_inv env fs opts summary ec st h
  have hcc : config' = config := Except.ok.inj (hload'.symm.trans hload)
  rw [hcc] at hmap
  exact hmap

/-- Witness for C4: the concrete summary lists results for exactly the two
enabled sources `a`, `b`, in configuration order. -/
theorem results_order_preservation_witness :
    wSummary.results.map (fun r => r.source) = getEnabledSources wConfig :=
  results_order_preservation wEnv wFS wOpts wConfig wSummary 1 wSt rfl rfl

/-- A trimmed string field is read off the trim-normalized property value. -/
theorem trimmedStrField_eq (s : JValue) (k : String) :
    trimmedStrField s k = optStrVal (trimNorm (jGet s k)) := by
  unfold trimmedStrField optStrVal trimNorm
  cases h : jGet s k with
  | none => rfl
  | some v => cases v <;> rfl

/-- `validateSource` factors through the validation key of the element. -/
theorem validateSource_eq_key (s : JValue) (i : Nat) :
    validateSource s i = validateSourceKey (srcKey s) i := by
  unfold validateSource validateSourceKey srcKey boolField
  simp only [trimmedStrField_eq]

/-- The source traversal factors through the element keys. -/
theorem validateSources_eq_keys (xs : List JValue) :
    ∀ k, validateSources xs k = validateSourcesKeys (xs.map srcKey) k := by
  induction xs with
  | nil => intro k; rfl
  | cons s rest ih =>
    intro k
    unfold validateSources validateSourcesKeys
    rw [validateSource_eq_key, ih (k + 1)]
    rfl

/-- `validateConfig` factors through the root key. -/
theorem validateConfig_eq_key (d : JValue) :
    validateConfig d =
      validateConfigKey (isObjectLike d) (jGet d "machine_name")
        (srcsNorm (jGet d "sources")) := by
  unfold validateConfig validateConfigKey
  cases hm : jGet d "machine_name" with
  | none => rfl
  | some v =>
    cases v with
    | str mn =>
      cases hs : jGet d "sources" with
      | none => rfl
      | some w =>
        cases w <;> simp only [srcsNorm, validateSources_eq_keys]
    | num n => rfl
    | boolean b => rfl
    | null => rfl
    | arr xs => rfl
    | obj fields => rfl

/-- Inversion of a succeeding trimmed-string field read. -/
theorem trimmedStrField_some (s : JValue) (k : String) (t : String)
    (h : trimmedStrField s k = some t) :
    ∃ n, jGet s k = some (.str n) ∧ t = jsTrim n := by
  unfold trimmedStrField at h
  cases hj : jGet s k with
  | none => rw [hj] at h; simp at h
  | some v =>
    rw [hj] at h
    cases v with
    | str n =>
      refine ⟨n, rfl, ?_⟩
      by_cases hb : jsTrim n = "" <;> simp [hb] at h
      exact h.symm
    | num m => simp at h
    | boolean b => simp at h
    | null => simp at h
    | arr xs => simp at h
    | obj fields => simp at h

/-- Inversion of a succeeding boolean field read. -/
theorem boolField_some (s : JValue) (k : String) (b : Bool)
    (h : boolField s k = some b) : jGet s k = some (.boolean b) := by
  unfold boolField boolFieldOpt at h
  cases hj : jGet s k with
  | none => rw [hj] at h; simp at h
  | some v =>
    rw [hj] at h
    cases v with
    | boolean b0 => simp at h; rw [h]
    | str n => simp at h
    | num m => simp at h
    | null => simp at h
    | arr xs => simp at h
    | obj fields => simp at h

/-- `isOkE` detects success. -/
theorem isOkE_iff (e : Except String BackupSource) :
    isOkE e = true ↔ ∃ b, e = .ok b := by
  cases e <;> simp [isOkE]

/-- Inversion of a fully succeeding source traversal: one validated output
per input element, at its own index. -/
theorem validateSources_ok_inv :
    ∀ (xs : List JValue) (k : Nat) (vs : List BackupSource),
      validateSources xs k = .ok vs →
      vs.length = xs.length ∧
        ∀ i (h1 : i < xs.length) (h2 : i < vs.length),
          validateSource (xs.get ⟨i, h1⟩) (k + i) = .ok (vs.get ⟨i, h2⟩) := by
  intro xs
  induction xs with
  | nil =>
    intro k vs h
    unfold validateSources at h
    simp only [Except.ok.injEq] at h
    subst h
    exact ⟨rfl, fun i h1 => absurd h1 (by simp)⟩
  | cons s rest ih =>
    intro k vs h
    unfold validateSources at h
    cases hs : validateSource s k with
    | error e => rw [hs] at h; simp at h
    | ok v =>
      rw [hs] at h
      cases hr : validateSources rest (k + 1) with
      | error e => rw [hr] at h; simp at h
      | ok vs' =>
        rw [hr] at h
        simp only [Except.ok.injEq] at h
        subst h
        obtain ⟨hlen, hidx⟩ := ih (k + 1) vs' hr
        refine ⟨by simp [hlen], ?_⟩
        intro i h1 h2
        cases i with
        | zero => simpa using hs
        | succ j =>
          have hj1 : j < rest.length := by simpa using h1
          have hj2 : j < vs'.length := by simpa using h2
          have := hidx j hj1 hj2
          simpa [Nat.add_assoc, Nat.add_comm 1 j] using this

/-- A traversal whose elements validate up to index `i` and whose element at
`i` fails propagates exactly that element's error. -/
theorem validateSources_error_at :
    ∀ (xs : List JValue) (k i : Nat) (e : String) (h : i < xs.length),
      (∀ j (hj : j < i), isOkE (validateSource (xs.get ⟨j, Nat.lt_trans hj h⟩) (k + j)) = true) →
      validateSource (xs.get ⟨i, h⟩) (k + i) = .error e →
      validateSources xs k = .error e := by
  intro xs
  induction xs with
  | nil => intro k i e h; simp at h
  | cons s rest ih =>
    intro k i e h hpre hbad
    unfold validateSources
    cases i with
    | zero =>
      rw [show validateSource s k = .error e by simpa using hbad]
    | succ m =>
      have h0 : isOkE (validateSource s k) = true := by
        have := hpre 0 (Nat.succ_pos m)
        simpa using this
      obtain ⟨b, hb⟩ := (isOkE_iff _).mp h0
      rw [hb]
      have hm : m < rest.length := by simpa using h
      have hrest : validateSources rest (k + 1) = .error e := by
        refine ih (k + 1) m e hm ?_ ?_
        · intro j hj
          have := hpre (j + 1) (by omega)
          have harith : k + (j + 1) = k + 1 + j := by omega
          simpa [harith] using this
        · have harith : k + (m + 1) = k + 1 + m := by omega
          simpa [harith] using hbad
      rw [hrest]

/-- C3: the validator is total with precise rejections.  A root that is not
an object by the JavaScript `typeof` test (string, number, boolean or null)
fails with the malformed-config error; an object root without a string
`machine_name` fails naming `machine_name`; with a string `machine_name` but
a non-array `sources` it fails naming `sources`; a non-object source element
fails naming its index; a source whose `name`/`path` is not a
non-empty-after-trim string or whose `enabled` is not a boolean fails naming
its index and that field (checked in the order name, path, enabled); the
first failing source's error is the validator's error; and a success is a
fully-populated configuration: the input `machine_name` plus one validated
source per input element, at its own index. -/
theorem validator_totality :
    (∀ data, isObjectLike data = false →
        validateConfig data = .error "Config must be a valid JSON object") ∧
    (∀ data, isObjectLike data = true →
        isStrOpt (jGet data "machine_name") = false →
        validateConfig data = .error "Config missing \x27machine_name\x27 field") ∧
    (∀ data mn, isObjectLike data = true →
        jGet data "machine_name" = some (.str mn) →
        isArrOpt (jGet data "sources") = false →
        validateConfig data = .error "Config missing \x27sources\x27 array") ∧
    (∀ s i, isObjectLike s = false →
        validateSource s i = .error (msgNotObject i)) ∧
    (∀ s i, isObjectLike s = true → trimmedStrField s "name" = none →
        validateSource s i = .error (msgMissingField i "name")) ∧
    (∀ s i nm, isObjectLike s = true → trimmedStrField s "name" = some nm →
        trimmedStrField s "path" = none →
        validateSource s i = .error (msgMissingField i "path")) ∧
    (∀ s i nm p, isObjectLike s = true → trimmedStrField s "name" = some nm →
        trimmedStrField s "path" = some p → boolField s "enabled" = none →
        validateSource s i = .error (msgMissingField i "enabled")) ∧
    (∀ data mn xs i e (h : i < xs.length),
        jGet data "machine_name" = some (.str mn) →
        jGet data "sources" = some (.arr xs) →
        (∀ j (hj : j < i),
          isOkE (validateSource (xs.get ⟨j, Nat.lt_trans hj h⟩) j) = true) →
        validateSource (xs.get ⟨i, h⟩) i = .error e →
        validateConfig data = .error e) ∧
    (∀ data cfg, validateConfig data = .ok cfg →
        ∃ mn xs, jGet data "machine_name" = some (.str mn) ∧
          jGet data "sources" = some (.arr xs) ∧
          cfg.machine_name = mn ∧ cfg.sources.length = xs.length ∧
          ∀ i (h1 : i < xs.length) (h2 : i < cfg.sources.length),
            validateSource (xs.get ⟨i, h1⟩) i = .ok (cfg.sources.get ⟨i, h2⟩)) := by
  refine ⟨?_, ?_, ?_, ?_, ?_, ?_, ?_, ?_, ?_⟩
  · intro data h
    unfold validateConfig
    rw [h]
    rfl
  · intro data h1 h2
    unfold validateConfig
    rw [h1]
    cases hm : jGet data "machine_name" with
    | none => rfl
    | some v =>
      cases v <;> simp_all [isStrOpt]
  · intro data mn h1 hm hs
    unfold validateConfig
    rw [h1, hm]
    cases hsrc : jGet data "sources" with
    | none => rfl
    | some w =>
      cases w <;> simp_all [isArrOpt]
  · intro s i h
    unfold validateSource
    rw [h]
    rfl
  · intro s i h1 hn
    unfold validateSource
    rw [h1, hn]
    rfl
  · intro s i nm h1 hn hp
    unfold validateSource
    rw [h1, hn, hp]
    rfl
  · intro s i nm p h1 hn hp hb
    unfold validateSource
    rw [h1, hn, hp, hb]
    rfl
  · intro data mn xs i e h hm hs hpre hbad
    have hobj : isObjectLike data = true := by
      cases data <;> simp_all [jGet, isObjectLike]
    have herr : validateSources xs 0 = .error e := by
      refine validateSources_error_at xs 0 i e h ?_ ?_
      · intro j hj
        simpa using hpre j hj
      · simpa using hbad
    unfold validateConfig
    rw [hobj, hm, hs]
    simp [herr]
  · intro data cfg h
    cases data with
    | str s0 => simp [validateConfig, isObjectLike] at h
    | num n0 => simp [validateConfig, isObjectLike] at h
    | boolean b0 => simp [validateConfig, isObjectLike] at h
    | null => simp [validateConfig, isObjectLike] at h
    | arr l0 => simp [validateConfig, isObjectLike, jGet] at h
    | obj fields =>
      unfold validateConfig at h
      cases hm : jGet (.obj fields) "machine_name" with
      | none =>
        try rw [hm] at h
        simp [isObjectLike] at h
      | some v =>
        try rw [hm] at h
        cases v with
        | str mn =>
          cases hs : jGet (.obj fields) "sources" with
          | none =>
            try rw [hs] at h
            simp [isObjectLike] at h
          | some w =>
            try rw [hs] at h
            cases w with
            | arr xs =>
              simp only [isObjectLike] at h
              cases hv : validateSources xs 0 with
              | error e =>
                try rw [hv] at h
                simp at h
              | ok vs =>
                try rw [hv] at h
                simp only [Bool.true_eq_false, if_false] at h
                simp only [Except.ok.injEq] at h
                have hcfg : cfg = { machine_name := mn, sources := vs } := h.symm
                subst hcfg
                obtain ⟨hlen, hidx⟩ := validateSources_ok_inv xs 0 vs hv
                refine ⟨mn, xs, rfl, rfl, rfl, hlen, ?_⟩
                intro i h1 h2
                simpa using hidx i h1 h2
            | str t => simp [isObjectLike] at h
            | num n => simp [isObjectLike] at h
            | boolean b => simp [isObjectLike] at h
            | null => simp [isObjectLike] at h
            | obj f2 => simp [isObjectLike] at h
        | num n => simp [isObjectLike] at h
        | boolean b => simp [isObjectLike] at h
        | null => simp [isObjectLike] at h
        | arr ys => simp [isObjectLike] at h
        | obj f2 => simp [isObjectLike] at h

/-- Witness for C3: each rejection case of the validator exercised at a
concrete malformed input, and full population exercised on the concrete valid
configuration. -/
theorem validator_totality_witness :
    validateConfig (.num 3) = .error "Config must be a valid JSON object" ∧
    validateConfig (.obj [("machine_name", .num 1)])
      = .error "Config missing \x27machine_name\x27 field" ∧
    validateConfig (.obj [("machine_name", .str "h")])
      = .error "Config missing \x27sources\x27 array" ∧
    validateSource (.num 2) 5 = .error (msgNotObject 5) ∧
    validateSource (.obj [("name", .str "  ")]) 1 = .error (msgMissingField 1 "name") ∧
    validateSource (.obj [("name", .str "a")]) 2 = .error (msgMissingField 2 "path") ∧
    validateSource (.obj [("name", .str "a"), ("path", .str "/p")]) 3
      = .error (msgMissingField 3 "enabled") ∧
    validateConfig (.obj [("machine_name", .str "h"), ("sources", .arr [wSrcA, .num 9])])
      = .error (msgNotObject 1) ∧
    (∃ mn xs, jGet wData "machine_name" = some (.str mn) ∧
      jGet wData "sources" = some (.arr xs) ∧
      wConfig.machine_name = mn ∧ wConfig.sources.length = xs.length ∧
      ∀ i (h1 : i < xs.length) (h2 : i < wConfig.sources.length),
        validateSource (xs.get ⟨i, h1⟩) i = .ok (wConfig.sources.get ⟨i, h2⟩)) := by
  refine ⟨?_, ?_, ?_, ?_, ?_, ?_, ?_, ?_, ?_⟩
  · exact validator_totality.1 (.num 3) rfl
  · exact validator_totality.2.1 (.obj [("machine_name", .num 1)]) rfl rfl
  · exact validator_totality.2.2.1 (.obj [("machine_name", .str "h")]) "h" rfl rfl rfl
  · exact validator_totality.2.2.2.1 (.num 2) 5 rfl
  · exact validator_totality.2.2.2.2.1 (.obj [("name", .str "  ")]) 1 rfl rfl
  · exact validator_totality.2.2.2.2.2.1 (.obj [("name", .str "a")]) 2 "a" rfl rfl rfl
  · exact validator_totality.2.2.2.2.2.2.1
      (.obj [("name", .str "a"), ("path", .str "/p")]) 3 "a" "/p" rfl rfl rfl rfl
  · refine validator_totality.2.2.2.2.2.2.2.1
      (.obj [("machine_name", .str "h"), ("sources", .arr [wSrcA, .num 9])])
      "h" [wSrcA, .num 9] 1 (msgNotObject 1) (by simp) rfl rfl ?_ rfl
    intro j hj
    have hj0 : j = 0 := by omega
    subst hj0
    rfl
  · exact validator_totality.2.2.2.2.2.2.2.2 wData wConfig rfl

/-- C8: validation trims and never depends on padding.  A validated source
stores exactly the whitespace-trimmed input `name`/`path` strings, and two
configuration inputs that differ only by whitespace padding around those
strings validate to identical outputs (the embedding is pure, so the input
value is never mutated). -/
theorem validation_trim_idempotence :
    (∀ s i bs, validateSource s i = .ok bs →
        ∃ n p b, jGet s "name" = some (.str n) ∧ jGet s "path" = some (.str p) ∧
          jGet s "enabled" = some (.boolean b) ∧
          bs.name = jsTrim n ∧ bs.path = jsTrim p ∧ bs.enabled = b) ∧
    (∀ d d', configTrimEquiv d d' → validateConfig d = validateConfig d') := by
  constructor
  · intro s i bs h
    unfold validateSource at h
    cases hob : isObjectLike s with
    | false => simp [hob] at h
    | true =>
      rcases hn : trimmedStrField s "name" with _ | nm <;>
        rcases hp : trimmedStrField s "path" with _ | pth <;>
          rcases hb : boolField s "enabled" with _ | en <;>
            simp [hob, hn, hp, hb] at h
      subst h
      obtain ⟨n, hjn, hnm⟩ := trimmedStrField_some s "name" nm hn
      obtain ⟨p, hjp, hpp⟩ := trimmedStrField_some s "path" pth hp
      exact ⟨n, p, en, hjn, hjp, boolField_some s "enabled" en hb,
             by rw [hnm], by rw [hpp], rfl⟩
  · intro d d' hequiv
    obtain ⟨h1, h2, h3⟩ := hequiv
    rw [validateConfig_eq_key d, validateConfig_eq_key d', h1, h2, h3]

/-- Witness for C8: the padded and plain concrete configurations validate to
identical outputs, and the padded source stores the trimmed strings. -/
theorem validation_trim_idempotence_witness :
    validateConfig wPaddedData = validateConfig wPlainData ∧
    (∃ n p b,
      jGet (.obj [("name", .str " a "), ("path", .str "/p"), ("enabled", .boolean true)])
          "name" = some (.str n) ∧
      jGet (.obj [("name", .str " a "), ("path", .str "/p"), ("enabled", .boolean true)])
          "path" = some (.str p) ∧
      jGet (.obj [("name", .str " a "), ("path", .str "/p"), ("enabled", .boolean true)])
          "enabled" = some (.boolean b) ∧
      (⟨"a", "/p", true⟩ : BackupSource).name = jsTrim n ∧
      (⟨"a", "/p", true⟩ : BackupSource).path = jsTrim p ∧
      (⟨"a", "/p", true⟩ : BackupSource).enabled = b) :=
  ⟨validation_trim_idempotence.2 wPaddedData wPlainData ⟨rfl, rfl, rfl⟩,
   validation_trim_idempotence.1
     (.obj [("name", .str " a "), ("path", .str "/p"), ("enabled", .boolean true)]) 0
     ⟨"a", "/p", true⟩ rfl⟩

/-- A joined path is strictly longer than its directory prefix. -/
theorem joinPath_ne (a b : String) : joinPath a b ≠ a := by
  intro h
  have hl := congrArg String.length h
  have hone : ("/" : String).length = 1 := rfl
  rw [joinPath] at hl
  simp [String.length_append, hone] at hl
  omega

/-- C9: `initializeConfig` writes the template — a configuration with exactly
one example source, disabled — only when no file exists at the machine config
path; when a file already exists there, every file content is left unchanged;
in both cases the machine config path is returned. -/
theorem initialize_config_frame (env : Env) (fs : FS) :
    (fsExists fs (getMachineConfigPath env) = true →
      (initializeConfig env fs).1 = getMachineConfigPath env ∧
      ((initializeConfig env fs).2).files = fs.files) ∧
    (fsExists fs (getMachineConfigPath env) = false →
      (initializeConfig env fs).1 = getMachineConfigPath env ∧
      contentLookup ((initializeConfig env fs).2).files (getMachineConfigPath env)
        = some (serializeConfig (templateConfig env.hostname env.win32)) ∧
      (templateConfig env.hostname env.win32).sources.map (fun s => s.enabled)
        = [false]) := by
  have hne : ¬ ((getPaths env.cwd).machineConfigsDir = getMachineConfigPath env) := by
    intro h
    exact joinPath_ne (getPaths env.cwd).machineConfigsDir (env.hostname ++ ".json") h.symm
  constructor
  · intro h
    cases hd : fsExists fs (getPaths env.cwd).machineConfigsDir with
    | true => simp [initializeConfig, hd, h, mkdirp]
    | false =>
      have h' : pathExists fs.existing (getMachineConfigPath env) = true := h
      have hd' : pathExists fs.existing (getPaths env.cwd).machineConfigsDir = false := hd
      simp [initializeConfig, fsExists, mkdirp, pathExists, h', hd']
  · intro h
    cases hd : fsExists fs (getPaths env.cwd).machineConfigsDir with
    | true =>
      simp [initializeConfig, hd, h, writeFile, contentLookup, templateConfig]
    | false =>
      have h' : pathExists fs.existing (getMachineConfigPath env) = false := h
      have hd' : pathExists fs.existing (getPaths env.cwd).machineConfigsDir = false := hd
      simp [initializeConfig, fsExists, mkdirp, pathExists, h', hd', hne,
            writeFile, contentLookup, templateConfig]

/-- Witness for C9: with the config file present the file table is unchanged;
starting from a filesystem with only the root, the template for host `h` is
written at the machine config path and holds one disabled example source. -/
theorem initialize_config_frame_witness :
    ((initializeConfig wEnv wFS).1 = getMachineConfigPath wEnv ∧
     ((initializeConfig wEnv wFS).2).files = wFS.files) ∧
    ((initializeConfig wEnv ⟨["r"], []⟩).1 = getMachineConfigPath wEnv ∧
     contentLookup ((initializeConfig wEnv ⟨["r"], []⟩).2).files (getMachineConfigPath wEnv)
       = some (serializeConfig (templateConfig wEnv.hostname wEnv.win32)) ∧
     (templateConfig wEnv.hostname wEnv.win32).sources.map (fun s => s.enabled)
       = [false]) :=
  ⟨(initialize_config_frame wEnv wFS).1 rfl,
   (initialize_config_frame wEnv ⟨["r"], []⟩).2 rfl⟩
